import Mathlib

/-!
# Verification of the Telegram moderation bot (`src/bot.py`)

Shallow embedding of the bot's handlers and persistence layer.
Message texts are Python strings, modelled as Lean `String`s; the string
operations the bot uses (`lower`, `in`/substring containment,
`replace("/edit", "")`, `strip`) are embedded as executable functions on
the underlying character lists.  All side effects (Telegram API calls,
logging, database writes) are modelled as an `Action` trace returned by
each handler; fallible platform calls are modelled by explicit fault
parameters (`ModFault`, `ChatLookup`, the AI callback returning `Except`).
-/

namespace Bot

/-- Banned substring list: `BAD_WORDS` of `src/bot.py`. -/
def BAD_WORDS : List String := ["salak", "aptal", "orospu", "sikerim", "amk", "yarrak"]

/-- Ban duration in seconds: `BAN_DURATION = 4 * 60 * 60` of `src/bot.py`. -/
def BAN_DURATION : Nat := 4 * 60 * 60

/-- Substring containment on character lists: Python's `pat in s`. -/
def containsSub (pat : List Char) : List Char → Bool
  | [] => pat.isEmpty
  | c :: rest => pat.isPrefixOf (c :: rest) || containsSub pat rest

/-- Python `s.lower()` on the characters of a string (ASCII-faithful). -/
def lowerData (t : String) : List Char := t.data.map Char.toLower

/-- `any(bad_word in lower_text for bad_word in BAD_WORDS)` (line 111). -/
def flagged (t : String) : Bool :=
  BAD_WORDS.any fun w => containsSub w.data (lowerData t)

/-- A Telegram user as the handlers see it (`message.from_user`). -/
structure TgUser where
  id : Int
  first_name : String
deriving DecidableEq

/-- An inbound Telegram message, with the fields the handlers read. -/
structure Msg where
  message_id : Nat
  chat_id : Int
  from_user : TgUser
  text : Option String
deriving DecidableEq

/-- Observable side effects of a handler invocation, in order. -/
inductive Action where
  | answer (chatId : Int) (text : String)
  | deleteMessage (chatId : Int) (messageId : Nat)
  | banChatMember (chatId userId : Int) (untilDate : Nat)
  | sendMessage (userId : Int) (text : String)
  | aiCall (prompt : String)
  | logError (text : String)
  | updateStats (userId chatId : Int)
deriving DecidableEq

/-- Fault model for the `try` block of `moderation` (lines 114-126): which
of the awaited platform calls inside it, if any, raises. -/
inductive ModFault where
  | ok
  | deleteFails (e : String)
  | banFails (e : String)
  | answerFails (e : String)
deriving DecidableEq

/-- The actions of the `try` block of `moderation` (lines 114-126): delete
the message, ban the sender until `now + BAN_DURATION`, post the notice;
on a raised error the remaining calls are skipped and the error logged. -/
def modActions (m : Msg) (fault : ModFault) (now : Nat) : List Action :=
  match fault with
  | ModFault.ok =>
      [Action.deleteMessage m.chat_id m.message_id,
       Action.banChatMember m.chat_id m.from_user.id (now + BAN_DURATION),
       Action.answer m.chat_id
         ("⚠️ " ++ m.from_user.first_name ++ " küfür ettiği için 4 saat banlandı.")]
  | ModFault.deleteFails e =>
      [Action.logError ("Ban hatası: " ++ e)]
  | ModFault.banFails e =>
      [Action.deleteMessage m.chat_id m.message_id,
       Action.logError ("Ban hatası: " ++ e)]
  | ModFault.answerFails e =>
      [Action.deleteMessage m.chat_id m.message_id,
       Action.banChatMember m.chat_id m.from_user.id (now + BAN_DURATION),
       Action.logError ("Ban hatası: " ++ e)]

/-- The `moderation` handler (lines 105-129).  `status` is the result of
`get_chat_member` for the sender; `now` the current time in seconds. -/
def moderation (m : Msg) (status : String) (fault : ModFault) (now : Nat) : List Action :=
  match m.text with
  | none => []
  | some t =>
      (if flagged t then
         if status ≠ "administrator" ∧ status ≠ "creator" then
           modActions m fault now
         else []
       else [])
      ++ [Action.updateStats m.from_user.id m.chat_id]

/-- The `/start` handler `cmd_start` (lines 84-86). -/
def cmd_start (m : Msg) : List Action :=
  [Action.answer m.chat_id "Merhaba! Ben senin asistan botunum 🚀"]

/-- Markdown helper `hbold` of `aiogram.utils.markdown`. -/
def hbold (s : String) : String := "<b>" ++ s ++ "</b>"

/-- Fault model for the platform lookups of `cmd_info` (lines 89-102):
either `get_chat` succeeds with a chat type and `get_chat_member_count`
succeeds with a count, or one of the two raises. -/
inductive ChatLookup where
  | ok (chatType : String) (memberCount : Nat)
  | getChatFails (e : String)
  | getCountFails (chatType : String) (e : String)
deriving DecidableEq

/-- The `/info` handler `cmd_info` (lines 89-102). -/
def cmd_info (m : Msg) (lookup : ChatLookup) : List Action :=
  match lookup with
  | ChatLookup.getChatFails e => [Action.answer m.chat_id ("❌ Hata: " ++ e)]
  | ChatLookup.ok ty cnt =>
      if ty = "group" ∨ ty = "supergroup" then
        [Action.answer m.chat_id ("👥 Bu grupta " ++ hbold (toString cnt) ++ " kişi var.")]
      else if ty = "channel" then
        [Action.answer m.chat_id ("📢 Bu kanalda " ++ hbold (toString cnt) ++ " abone var.")]
      else
        [Action.answer m.chat_id "ℹ️ Bu komut sadece grup veya kanalda çalışır."]
  | ChatLookup.getCountFails ty e =>
      if ty = "group" ∨ ty = "supergroup" ∨ ty = "channel" then
        [Action.answer m.chat_id ("❌ Hata: " ++ e)]
      else
        [Action.answer m.chat_id "ℹ️ Bu komut sadece grup veya kanalda çalışır."]

/-- The characters of the pattern `"/edit"`. -/
def editPat : List Char := ['/', 'e', 'd', 'i', 't']

/-- Python `text.replace("/edit", "")` (line 137): remove every
non-overlapping occurrence of `"/edit"`, scanning left to right. -/
def removeEdit : List Char → List Char
  | '/' :: 'e' :: 'd' :: 'i' :: 't' :: rest => removeEdit rest
  | c :: rest => c :: removeEdit rest
  | [] => []

/-- Python `s.strip()`: drop whitespace from both ends. -/
def strip (l : List Char) : List Char :=
  ((l.dropWhile Char.isWhitespace).reverse.dropWhile Char.isWhitespace).reverse

/-- `message.text.replace("/edit", "").strip()` (line 137). -/
def pyEditText (t : String) : String := String.mk (strip (removeEdit t.data))

/-- The `/edit` handler `cmd_edit` (lines 132-146).  `admin` is the
configured `ADMIN_ID`; `ai` models `model.generate_content`, which either
returns rewritten text or raises. -/
def cmd_edit (admin : Int) (ai : String → Except String String) (m : Msg) : List Action :=
  if m.from_user.id ≠ admin then
    [Action.answer m.chat_id "❌ Bu komut sadece yöneticiler içindir."]
  else if pyEditText (m.text.getD "") = "" then
    [Action.answer m.chat_id "Lütfen düzenlenecek bir metin girin."]
  else
    match ai ("Şu yazıyı düzenle, akıcı yap, emoji ekle:\n\n" ++ pyEditText (m.text.getD "")) with
    | Except.ok edited =>
        [Action.aiCall
           ("Şu yazıyı düzenle, akıcı yap, emoji ekle:\n\n" ++ pyEditText (m.text.getD "")),
         Action.sendMessage admin ("📑 Düzenlenmiş metin:\n\n" ++ edited)]
    | Except.error e =>
        [Action.aiCall
           ("Şu yazıyı düzenle, akıcı yap, emoji ekle:\n\n" ++ pyEditText (m.text.getD "")),
         Action.answer m.chat_id ("❌ Düzenleme hatası: " ++ e)]

/-- The bot command named by a message text, as aiogram's `Command` filter
extracts it: text must start with `/`; the command is the first
whitespace-delimited token, with any `@botname` mention removed. -/
def commandOf (t : String) : Option (List Char) :=
  match t.data with
  | '/' :: rest =>
      some ((rest.takeWhile fun c => !c.isWhitespace).takeWhile fun c => c != '@')
  | _ => none

/-- The four registered handlers, in registration order of `src/bot.py`:
`cmd_start` (line 84), `cmd_info` (line 89), `moderation` (line 105),
`cmd_edit` (line 132). -/
inductive Handler where
  | cmdStart
  | cmdInfo
  | moderation
  | cmdEdit
deriving DecidableEq

/-- aiogram first-match dispatch over the handlers in registration order:
`Command("start")`, then `Command("info")`, then the unfiltered
`moderation` handler, then `Command("edit")`.  The unfiltered handler
matches every message, so `cmd_edit` is unreachable. -/
def dispatch (m : Msg) : Handler :=
  match m.text with
  | some t =>
      if commandOf t = some "start".data then Handler.cmdStart
      else if commandOf t = some "info".data then Handler.cmdInfo
      else Handler.moderation
  | none => Handler.moderation

/-- Process one inbound message: dispatch it and run the selected handler. -/
def process (admin : Int) (ai : String → Except String String) (status : String)
    (fault : ModFault) (now : Nat) (lookup : ChatLookup) (m : Msg) : List Action :=
  match dispatch m with
  | Handler.cmdStart => cmd_start m
  | Handler.cmdInfo => cmd_info m lookup
  | Handler.moderation => moderation m status fault now
  | Handler.cmdEdit => cmd_edit admin ai m

/-- A row of the `stats` table (lines 53-61). -/
structure StatsRecord where
  user_id : Int
  chat_id : Int
  message_count : Nat
  last_used : Nat
deriving DecidableEq

/-- `update_stats` (lines 63-77): select the row for the pair; if present,
increment its count and refresh the timestamp; otherwise insert a new row
with count 1.  The table is the list of rows in insertion order. -/
def update_stats (uid cid : Int) (now : Nat) : List StatsRecord → List StatsRecord
  | [] => [⟨uid, cid, 1, now⟩]
  | r :: rs =>
      if r.user_id = uid ∧ r.chat_id = cid then
        { r with message_count := r.message_count + 1, last_used := now } :: rs
      else
        r :: update_stats uid cid now rs

/-- The stored `message_count` for a pair, if a row exists: the SELECT of
lines 65-67 restricted to the count column. -/
def getCount (uid cid : Int) : List StatsRecord → Option Nat
  | [] => none
  | r :: rs =>
      if r.user_id = uid ∧ r.chat_id = cid then some r.message_count
      else getCount uid cid rs

/-- The stored `message_count` for a pair, defaulting to 0. -/
def countD (uid cid : Int) (db : List StatsRecord) : Nat :=
  (getCount uid cid db).getD 0

/-- Is the action the persistence update (`update_stats` call)? -/
def isUpdate : Action → Bool
  | Action.updateStats _ _ => true
  | _ => false

/-- Is the action a call to the generative-AI service? -/
def isAiCall : Action → Bool
  | Action.aiCall _ => true
  | _ => false

/-- Is the action a message deletion? -/
def isDelete : Action → Bool
  | Action.deleteMessage _ _ => true
  | _ => false

/-- Is the action a ban? -/
def isBan : Action → Bool
  | Action.banChatMember _ _ _ => true
  | _ => false

/-- Is the action user-visible (a chat reply or a private message)? -/
def isNotice : Action → Bool
  | Action.answer _ _ => true
  | Action.sendMessage _ _ => true
  | _ => false

/-- Number of persistence updates in a trace. -/
def countUpd (l : List Action) : Nat := l.countP isUpdate

/-- The text following the leading `/edit` command, trimmed: what a reader
of the spec means by "the text following the command". -/
def afterCommandText (t : String) : String :=
  String.mk (strip (t.data.drop editPat.length))

/-- Number of non-whitespace characters of a character list. -/
def nonWs (l : List Char) : Nat := (l.filter fun c => !c.isWhitespace).length

/-- Texts built only from occurrences of `"/edit"` and whitespace. -/
inductive EditWs : List Char → Prop
  | nil : EditWs []
  | ws (c : Char) (h : c.isWhitespace = true) (l : List Char) :
      EditWs l → EditWs (c :: l)
  | edit (l : List Char) : EditWs l → EditWs (editPat ++ l)

/-!
## Helper lemmas

General lemmas about the embedded string processing and the persistence
layer, shared by the claim theorems below.
-/

lemma removeEdit_cons (c : Char) (rest : List Char)
    (h : ∀ rest2 : List Char, c = '/' → rest = 'e' :: 'd' :: 'i' :: 't' :: rest2 → False) :
    removeEdit (c :: rest) = c :: removeEdit rest := by
  rw [removeEdit.eq_def]
  split
  · rename_i r heq
    injection heq with h1 h2
    exact (h r h1 h2).elim
  · rename_i c2 rest2 hfall heq
    injection heq with h1 h2
    subst h1; subst h2; rfl
  · rename_i heq
    exact absurd heq (List.cons_ne_nil c rest)

lemma nonWs_cons (c : Char) (l : List Char) :
    nonWs (c :: l) = (if c.isWhitespace then 0 else 1) + nonWs l := by
  by_cases h : c.isWhitespace
  · simp [nonWs, List.filter_cons, h]
  · simp [nonWs, List.filter_cons, h]
    omega

lemma nonWs_editPat_append (l : List Char) : nonWs (editPat ++ l) = 5 + nonWs l := by
  simp [nonWs, editPat, List.filter_append, List.filter_cons]
  omega

lemma nonWs_removeEdit_le (l : List Char) : nonWs (removeEdit l) ≤ nonWs l := by
  induction l using removeEdit.induct with
  | case1 rest ih =>
    have he : removeEdit ('/' :: 'e' :: 'd' :: 'i' :: 't' :: rest) = removeEdit rest := rfl
    rw [he]
    calc nonWs (removeEdit rest) ≤ nonWs rest := ih
    _ ≤ nonWs ('/' :: 'e' :: 'd' :: 'i' :: 't' :: rest) := by
        show nonWs rest ≤ nonWs (editPat ++ rest)
        rw [nonWs_editPat_append]; omega
  | case2 c rest h ih =>
    rw [removeEdit_cons c rest h, nonWs_cons, nonWs_cons]
    omega
  | case3 => simp [removeEdit, nonWs]

lemma not_prefixOf_of_fallthrough (c : Char) (rest : List Char)
    (h : ∀ rest2 : List Char, c = '/' → rest = 'e' :: 'd' :: 'i' :: 't' :: rest2 → False) :
    ¬ editPat.isPrefixOf (c :: rest) = true := by
  intro hp
  rw [List.isPrefixOf_iff_prefix, List.prefix_iff_eq_append] at hp
  rw [show editPat ++ List.drop editPat.length (c :: rest) =
      '/' :: 'e' :: 'd' :: 'i' :: 't' :: List.drop editPat.length (c :: rest) from rfl] at hp
  injection hp with h1 h2
  exact h _ h1.symm h2.symm

lemma nonWs_removeEdit_lt (l : List Char) (hc : containsSub editPat l = true) :
    nonWs (removeEdit l) < nonWs l := by
  induction l using removeEdit.induct with
  | case1 rest ih =>
    have he : removeEdit ('/' :: 'e' :: 'd' :: 'i' :: 't' :: rest) = removeEdit rest := rfl
    rw [he]
    have h2 := nonWs_removeEdit_le rest
    show nonWs (removeEdit rest) < nonWs (editPat ++ rest)
    rw [nonWs_editPat_append]; omega
  | case2 c rest h ih =>
    rw [removeEdit_cons c rest h, nonWs_cons, nonWs_cons]
    have hc2 : containsSub editPat rest = true := by
      rw [containsSub] at hc
      rcases Bool.or_eq_true_iff.mp hc with h1 | h1
      · exact absurd h1 (not_prefixOf_of_fallthrough c rest h)
      · exact h1
    have := ih hc2
    omega
  | case3 => simp [containsSub, editPat] at hc

lemma nonWs_dropWhile (l : List Char) :
    nonWs (l.dropWhile Char.isWhitespace) = nonWs l := by
  induction l with
  | nil => rfl
  | cons c rest ih =>
    by_cases h : c.isWhitespace
    · rw [List.dropWhile_cons, if_pos h, ih, nonWs_cons, if_pos h]; omega
    · rw [List.dropWhile_cons, if_neg h]

lemma nonWs_reverse (l : List Char) : nonWs l.reverse = nonWs l := by
  simp [nonWs, List.filter_reverse]

lemma nonWs_strip (l : List Char) : nonWs (strip l) = nonWs l := by
  rw [strip, nonWs_reverse, nonWs_dropWhile, nonWs_reverse, nonWs_dropWhile]

lemma removeEdit_allWs (l : List Char) (h : EditWs l) :
    ∀ c ∈ removeEdit l, c.isWhitespace = true := by
  induction h with
  | nil => intro c hc; simp [removeEdit] at hc
  | ws c hws rest hr ih =>
    have hne : ∀ rest2 : List Char, c = '/' → rest = 'e' :: 'd' :: 'i' :: 't' :: rest2 → False := by
      intro rest2 hc _
      rw [hc] at hws
      exact absurd hws (by decide)
    rw [removeEdit_cons c rest hne]
    intro d hd
    rcases List.mem_cons.mp hd with h1 | h1
    · rw [h1]; exact hws
    · exact ih d h1
  | edit rest hr ih =>
    have he : removeEdit (editPat ++ rest) = removeEdit rest := rfl
    rw [he]
    exact ih

lemma strip_allWs (l : List Char) (h : ∀ c ∈ l, c.isWhitespace = true) :
    strip l = [] := by
  rw [strip, List.dropWhile_eq_nil_iff.mpr h]
  simp

lemma getCount_update_self (uid cid : Int) (now : Nat) (db : List StatsRecord) :
    getCount uid cid (update_stats uid cid now db) = some (countD uid cid db + 1) := by
  induction db with
  | nil => simp [update_stats, getCount, countD]
  | cons r rs ih =>
    by_cases h : r.user_id = uid ∧ r.chat_id = cid
    · rw [show update_stats uid cid now (r :: rs) =
          { r with message_count := r.message_count + 1, last_used := now } :: rs by
          simp [update_stats, h]]
      rw [getCount, if_pos (by simpa using h), countD, getCount, if_pos h]
      rfl
    · rw [show update_stats uid cid now (r :: rs) = r :: update_stats uid cid now rs by
          simp [update_stats, h]]
      rw [getCount, if_neg h, countD, getCount, if_neg h]
      exact ih

lemma countD_update_self (uid cid : Int) (now : Nat) (db : List StatsRecord) :
    countD uid cid (update_stats uid cid now db) = countD uid cid db + 1 := by
  rw [countD, getCount_update_self]
  rfl

lemma getCount_update_other (uid cid uid2 cid2 : Int) (now : Nat) (db : List StatsRecord)
    (hne : ¬ (uid2 = uid ∧ cid2 = cid)) :
    getCount uid cid (update_stats uid2 cid2 now db) = getCount uid cid db := by
  induction db with
  | nil => simp [update_stats, getCount, hne]
  | cons r rs ih =>
    by_cases h : r.user_id = uid2 ∧ r.chat_id = cid2
    · have hq : ¬ (r.user_id = uid ∧ r.chat_id = cid) := by
        intro hc
        exact hne ⟨h.1 ▸ hc.1, h.2 ▸ hc.2⟩
      rw [show update_stats uid2 cid2 now (r :: rs) =
            { r with message_count := r.message_count + 1, last_used := now } :: rs by
            simp [update_stats, h]]
      rw [getCount, if_neg (by simpa using hq), getCount, if_neg hq]
    · rw [show update_stats uid2 cid2 now (r :: rs) = r :: update_stats uid2 cid2 now rs by
          simp [update_stats, h]]
      by_cases hq : r.user_id = uid ∧ r.chat_id = cid
      · rw [getCount, if_pos hq, getCount, if_pos hq]
      · rw [getCount, if_neg hq, getCount, if_neg hq]
        exact ih

lemma countD_update_mono (uid cid uid2 cid2 : Int) (now : Nat) (db : List StatsRecord) :
    countD uid cid db ≤ countD uid cid (update_stats uid2 cid2 now db) := by
  by_cases h : uid2 = uid ∧ cid2 = cid
  · rw [h.1, h.2, countD_update_self]
    omega
  · rw [countD, countD, getCount_update_other uid cid uid2 cid2 now db h]

lemma countD_update_iterate (uid cid : Int) (now : Nat) (db : List StatsRecord) (N : Nat) :
    countD uid cid ((update_stats uid cid now)^[N] db) = countD uid cid db + N := by
  induction N with
  | zero => rfl
  | succ n ih =>
    rw [Function.iterate_succ_apply', countD_update_self, ih]
    omega

lemma getCount_update_iterate (uid cid : Int) (now : Nat) (db : List StatsRecord) (N : Nat)
    (h : getCount uid cid db = none) (hN : 0 < N) :
    getCount uid cid ((update_stats uid cid now)^[N] db) = some N := by
  obtain ⟨n, rfl⟩ : ∃ n, N = n + 1 := ⟨N - 1, by omega⟩
  rw [Function.iterate_succ_apply', getCount_update_self, countD_update_iterate, countD, h]
  simp

/-!
## Claim theorems
-/

/-- C1: for every message whose lowercased text contains a banned substring,
sent by a user whose chat-member status is neither "administrator" nor
"creator", the moderation handler (absent platform errors) deletes the
message, bans the sender until exactly `BAN_DURATION` seconds after the
moment of the ban, posts a notice naming the sender, and `BAN_DURATION`
is 4 hours. -/
theorem moderation_deletes_and_bans (m : Msg) (t : String) (status : String) (now : Nat)
    (ht : m.text = some t) (hf : flagged t = true)
    (h1 : status ≠ "administrator") (h2 : status ≠ "creator") :
    moderation m status ModFault.ok now =
      [Action.deleteMessage m.chat_id m.message_id,
       Action.banChatMember m.chat_id m.from_user.id (now + BAN_DURATION),
       Action.answer m.chat_id
         ("⚠️ " ++ m.from_user.first_name ++ " küfür ettiği için 4 saat banlandı."),
       Action.updateStats m.from_user.id m.chat_id] ∧
    BAN_DURATION = 4 * 60 * 60 := by
  constructor
  · simp [moderation, ht, hf, h1, h2, modActions]
  · rfl

/-- Witness for C1 at a concrete flagged message from a plain member. -/
theorem moderation_deletes_and_bans_w :
    moderation ⟨10, -100, ⟨7, "Ali"⟩, some "salak"⟩ "member" ModFault.ok 0 =
      [Action.deleteMessage (-100) 10,
       Action.banChatMember (-100) 7 14400,
       Action.answer (-100) "⚠️ Ali küfür ettiği için 4 saat banlandı.",
       Action.updateStats 7 (-100)] ∧
    BAN_DURATION = 4 * 60 * 60 := by
  exact moderation_deletes_and_bans ⟨10, -100, ⟨7, "Ali"⟩, some "salak"⟩ "salak" "member" 0
    rfl (by decide) (by decide) (by decide)

/-- C2: for every message containing a banned substring whose sender's
chat-member status is "administrator" or "creator", the moderation handler
performs no deletion and no ban (only the statistics update), under any
fault model. -/
theorem moderation_admin_exempt (m : Msg) (t : String) (status : String)
    (fault : ModFault) (now : Nat)
    (ht : m.text = some t) (hf : flagged t = true)
    (hs : status = "administrator" ∨ status = "creator") :
    moderation m status fault now = [Action.updateStats m.from_user.id m.chat_id] ∧
    (moderation m status fault now).all (fun a => !isDelete a && !isBan a) = true := by
  have he : moderation m status fault now = [Action.updateStats m.from_user.id m.chat_id] := by
    rcases hs with hs | hs <;> subst hs <;> simp [moderation, ht, hf]
  refine ⟨he, ?_⟩
  rw [he]
  simp [isDelete, isBan]

/-- Witness for C2 at a concrete flagged message from an administrator. -/
theorem moderation_admin_exempt_w :
    moderation ⟨10, -100, ⟨7, "Ali"⟩, some "salak"⟩ "administrator" ModFault.ok 0 =
      [Action.updateStats 7 (-100)] := by
  exact (moderation_admin_exempt ⟨10, -100, ⟨7, "Ali"⟩, some "salak"⟩ "salak" "administrator"
    ModFault.ok 0 rfl (by decide) (Or.inl rfl)).1

/-- C9: if the delete or the ban raises, the moderation handler logs the
error, sends no user-visible notice, performs no retry (the trace is
exactly the actions before the failure plus the log entry), returns
normally, and still ends with the persistence update. -/
theorem moderation_error_swallowed (m : Msg) (t : String) (status : String) (now : Nat)
    (e : String)
    (ht : m.text = some t) (hf : flagged t = true)
    (h1 : status ≠ "administrator") (h2 : status ≠ "creator") :
    moderation m status (ModFault.deleteFails e) now =
      [Action.logError ("Ban hatası: " ++ e),
       Action.updateStats m.from_user.id m.chat_id] ∧
    moderation m status (ModFault.banFails e) now =
      [Action.deleteMessage m.chat_id m.message_id,
       Action.logError ("Ban hatası: " ++ e),
       Action.updateStats m.from_user.id m.chat_id] ∧
    (moderation m status (ModFault.deleteFails e) now).all (fun a => !isNotice a) = true ∧
    (moderation m status (ModFault.banFails e) now).all (fun a => !isNotice a) = true ∧
    (∀ fault : ModFault, (moderation m status fault now).getLast? =
      some (Action.updateStats m.from_user.id m.chat_id)) := by
  have hd : moderation m status (ModFault.deleteFails e) now =
      [Action.logError ("Ban hatası: " ++ e),
       Action.updateStats m.from_user.id m.chat_id] := by
    simp [moderation, ht, hf, h1, h2, modActions]
  have hb : moderation m status (ModFault.banFails e) now =
      [Action.deleteMessage m.chat_id m.message_id,
       Action.logError ("Ban hatası: " ++ e),
       Action.updateStats m.from_user.id m.chat_id] := by
    simp [moderation, ht, hf, h1, h2, modActions]
  refine ⟨hd, hb, ?_, ?_, ?_⟩
  · rw [hd]; simp [isNotice]
  · rw [hb]; simp [isNotice]
  · intro fault
    rw [show moderation m status fault now =
        modActions m fault now ++ [Action.updateStats m.from_user.id m.chat_id] by
        simp [moderation, ht, hf, h1, h2]]
    exact List.getLast?_concat _

/-- Witness for C9 at a concrete flagged message whose delete call fails. -/
theorem moderation_error_swallowed_w :
    moderation ⟨10, -100, ⟨7, "Ali"⟩, some "salak"⟩ "member" (ModFault.deleteFails "denied") 0 =
      [Action.logError "Ban hatası: denied", Action.updateStats 7 (-100)] := by
  exact (moderation_error_swallowed ⟨10, -100, ⟨7, "Ali"⟩, some "salak"⟩ "salak" "member" 0
    "denied" rfl (by decide) (by decide) (by decide)).1

/-- C3: the stored message count per (user, chat) pair is non-decreasing
under any `update_stats` call, is incremented by exactly 1 by each
`update_stats` call for the pair, is created at 1 on the first message of
a fresh pair, and after N processed messages of a fresh pair equals N. -/
theorem update_stats_message_count (uid cid : Int) (now : Nat) (db : List StatsRecord)
    (N : Nat) (h : getCount uid cid db = none) (hN : 0 < N) :
    (∀ (uid2 cid2 : Int) (now2 : Nat) (db2 : List StatsRecord),
        countD uid cid db2 ≤ countD uid cid (update_stats uid2 cid2 now2 db2)) ∧
    (∀ (now2 : Nat) (db2 : List StatsRecord),
        countD uid cid (update_stats uid cid now2 db2) = countD uid cid db2 + 1) ∧
    getCount uid cid (update_stats uid cid now db) = some 1 ∧
    getCount uid cid ((update_stats uid cid now)^[N] db) = some N := by
  refine ⟨fun uid2 cid2 now2 db2 => countD_update_mono uid cid uid2 cid2 now2 db2,
          fun now2 db2 => countD_update_self uid cid now2 db2, ?_, ?_⟩
  · rw [getCount_update_self, countD, h]
    rfl
  · exact getCount_update_iterate uid cid now db N h hN

/-- Witness for C3: three messages of a fresh pair store count 3. -/
theorem update_stats_message_count_w :
    getCount 1 2 ((update_stats 1 2 5)^[3] []) = some 3 := by
  exact (update_stats_message_count 1 2 5 [] 3 rfl (by decide)).2.2.2

/-- C8: `/info` replies with the member count in groups and supergroups,
with the subscriber count in channels, with the group/channel-only notice
for any other chat type, and with the error message when a platform lookup
raises. -/
theorem cmd_info_replies (m : Msg) :
    (∀ cnt : Nat, cmd_info m (ChatLookup.ok "group" cnt) =
        [Action.answer m.chat_id ("👥 Bu grupta " ++ hbold (toString cnt) ++ " kişi var.")]) ∧
    (∀ cnt : Nat, cmd_info m (ChatLookup.ok "supergroup" cnt) =
        [Action.answer m.chat_id ("👥 Bu grupta " ++ hbold (toString cnt) ++ " kişi var.")]) ∧
    (∀ cnt : Nat, cmd_info m (ChatLookup.ok "channel" cnt) =
        [Action.answer m.chat_id ("📢 Bu kanalda " ++ hbold (toString cnt) ++ " abone var.")]) ∧
    (∀ (ty : String) (cnt : Nat), ty ≠ "group" → ty ≠ "supergroup" → ty ≠ "channel" →
        cmd_info m (ChatLookup.ok ty cnt) =
          [Action.answer m.chat_id "ℹ️ Bu komut sadece grup veya kanalda çalışır."]) ∧
    (∀ e : String, cmd_info m (ChatLookup.getChatFails e) =
        [Action.answer m.chat_id ("❌ Hata: " ++ e)]) ∧
    (∀ (ty e : String), ty = "group" ∨ ty = "supergroup" ∨ ty = "channel" →
        cmd_info m (ChatLookup.getCountFails ty e) =
          [Action.answer m.chat_id ("❌ Hata: " ++ e)]) := by
  refine ⟨?_, ?_, ?_, ?_, ?_, ?_⟩
  · intro cnt; simp [cmd_info]
  · intro cnt; simp [cmd_info]
  · intro cnt; simp [cmd_info]
  · intro ty cnt h1 h2 h3; simp [cmd_info, h1, h2, h3]
  · intro e; simp [cmd_info]
  · intro ty e h
    rcases h with h | h | h <;> subst h <;> simp [cmd_info]

/-- Witness for C8: `/info` in a private chat gets the group/channel-only
notice. -/
theorem cmd_info_replies_w :
    cmd_info ⟨10, -500, ⟨7, "Ali"⟩, some "/info"⟩ (ChatLookup.ok "private" 5) =
      [Action.answer (-500) "ℹ️ Bu komut sadece grup veya kanalda çalışır."] := by
  exact (cmd_info_replies ⟨10, -500, ⟨7, "Ali"⟩, some "/info"⟩).2.2.2.1 "private" 5
    (by decide) (by decide) (by decide)

/-- C6: `/edit` invoked by any user whose identifier is not the configured
admin identifier always gets the rejection notice and the AI service is
never called. -/
theorem cmd_edit_rejects_nonadmin (admin : Int) (ai : String → Except String String)
    (m : Msg) (h : m.from_user.id ≠ admin) :
    cmd_edit admin ai m = [Action.answer m.chat_id "❌ Bu komut sadece yöneticiler içindir."] ∧
    (cmd_edit admin ai m).all (fun a => !isAiCall a) = true := by
  have he : cmd_edit admin ai m =
      [Action.answer m.chat_id "❌ Bu komut sadece yöneticiler içindir."] := by
    simp [cmd_edit, h]
  exact ⟨he, by rw [he]; simp [isAiCall]⟩

/-- Witness for C6 at a concrete non-admin invocation. -/
theorem cmd_edit_rejects_nonadmin_w :
    cmd_edit 123456789 (fun _ => Except.ok "x") ⟨10, -100, ⟨8, "Veli"⟩, some "/edit selam"⟩ =
      [Action.answer (-100) "❌ Bu komut sadece yöneticiler içindir."] := by
  exact (cmd_edit_rejects_nonadmin 123456789 (fun _ => Except.ok "x")
    ⟨10, -100, ⟨8, "Veli"⟩, some "/edit selam"⟩ (by decide)).1

/-- C5 counterexample: invoked by the admin with non-empty text following
the command (the text after `/edit` trims to `"/edit"`, which is
non-empty), the handler replies with the "enter text" notice and makes no
AI call, because it first removes every occurrence of `"/edit"`. -/
theorem cmd_edit_following_text_cex :
    afterCommandText "/edit /edit" ≠ "" ∧
    cmd_edit 123456789 (fun _ => Except.ok "x")
        ⟨10, -100, ⟨123456789, "Ali"⟩, some "/edit /edit"⟩ =
      [Action.answer (-100) "Lütfen düzenlenecek bir metin girin."] ∧
    (cmd_edit 123456789 (fun _ => Except.ok "x")
        ⟨10, -100, ⟨123456789, "Ali"⟩, some "/edit /edit"⟩).all (fun a => !isAiCall a) = true := by
  decide

/-- C5 (amended): invoked by the admin, when the message text with every
occurrence of `"/edit"` removed and whitespace trimmed is non-empty and
the AI call succeeds, the handler calls the AI exactly once on that
processed text and delivers the result as a private message to the admin;
when the processed text is empty, it replies with the "enter text" notice
and makes no AI call. -/
theorem cmd_edit_admin_rewrite (admin : Int) (ai : String → Except String String)
    (m : Msg) (hadm : m.from_user.id = admin) :
    (∀ r : String, pyEditText (m.text.getD "") ≠ "" →
        ai ("Şu yazıyı düzenle, akıcı yap, emoji ekle:\n\n" ++ pyEditText (m.text.getD "")) =
          Except.ok r →
        cmd_edit admin ai m =
          [Action.aiCall
             ("Şu yazıyı düzenle, akıcı yap, emoji ekle:\n\n" ++ pyEditText (m.text.getD "")),
           Action.sendMessage admin ("📑 Düzenlenmiş metin:\n\n" ++ r)]) ∧
    (pyEditText (m.text.getD "") = "" →
        cmd_edit admin ai m = [Action.answer m.chat_id "Lütfen düzenlenecek bir metin girin."] ∧
        (cmd_edit admin ai m).all (fun a => !isAiCall a) = true) := by
  constructor
  · intro r hne hai
    simp [cmd_edit, hadm, hne, hai]
  · intro hemp
    have he : cmd_edit admin ai m =
        [Action.answer m.chat_id "Lütfen düzenlenecek bir metin girin."] := by
      simp [cmd_edit, hadm, hemp]
    exact ⟨he, by rw [he]; simp [isAiCall]⟩

/-- Witness for C5 (amended) at a concrete admin invocation with text. -/
theorem cmd_edit_admin_rewrite_w :
    cmd_edit 5 (fun _ => Except.ok "Tamam!") ⟨10, -100, ⟨5, "Ali"⟩, some "/edit selam"⟩ =
      [Action.aiCall "Şu yazıyı düzenle, akıcı yap, emoji ekle:\n\nselam",
       Action.sendMessage 5 "📑 Düzenlenmiş metin:\n\nTamam!"] := by
  exact (cmd_edit_admin_rewrite 5 (fun _ => Except.ok "Tamam!")
    ⟨10, -100, ⟨5, "Ali"⟩, some "/edit selam"⟩ rfl).1 "Tamam!" (by decide) rfl

lemma commandOf_editPat (t : String) (rest : List Char) (h : t.data = editPat ++ rest) :
    ∃ l : List Char, commandOf t = some ('e' :: l) := by
  have h0 : commandOf t =
      some ((('e' :: 'd' :: 'i' :: 't' :: rest).takeWhile fun c => !c.isWhitespace).takeWhile
        fun c => c != '@') := by
    unfold commandOf
    rw [h]
    rfl
  rw [List.takeWhile_cons] at h0
  rw [if_pos (by decide)] at h0
  rw [List.takeWhile_cons] at h0
  rw [if_pos (by decide)] at h0
  exact ⟨_, h0⟩

/-- C7: under first-match dispatch in registration order, every text
message beginning with `/edit` is handled by the unfiltered moderation
handler, and no inbound update is ever dispatched to `cmd_edit`. -/
theorem cmd_edit_unreachable :
    (∀ (m : Msg) (t : String) (rest : List Char),
        m.text = some t → t.data = editPat ++ rest → dispatch m = Handler.moderation) ∧
    (∀ m : Msg, dispatch m ≠ Handler.cmdEdit) := by
  constructor
  · intro m t rest ht hd
    obtain ⟨l, hc⟩ := commandOf_editPat t rest hd
    have hne1 : commandOf t ≠ some "start".data := by
      rw [hc]
      intro hq
      injection hq with hq2
      injection hq2 with hq3 hq4
      exact absurd hq3 (by decide)
    have hne2 : commandOf t ≠ some "info".data := by
      rw [hc]
      intro hq
      injection hq with hq2
      injection hq2 with hq3 hq4
      exact absurd hq3 (by decide)
    obtain ⟨mid, cid, u, txt⟩ := m
    simp only at ht
    subst ht
    show (if commandOf t = some "start".data then Handler.cmdStart
          else if commandOf t = some "info".data then Handler.cmdInfo
          else Handler.moderation) = Handler.moderation
    rw [if_neg hne1, if_neg hne2]
  · intro m
    obtain ⟨mid, cid, u, txt⟩ := m
    cases txt with
    | none => simp [dispatch]
    | some t =>
      show (if commandOf t = some "start".data then Handler.cmdStart
            else if commandOf t = some "info".data then Handler.cmdInfo
            else Handler.moderation) ≠ Handler.cmdEdit
      split_ifs <;> simp

/-- Witness for C7: a concrete `/edit` message is dispatched to the
moderation handler. -/
theorem cmd_edit_unreachable_w :
    dispatch ⟨10, -100, ⟨7, "Ali"⟩, some "/edit selam"⟩ = Handler.moderation := by
  exact cmd_edit_unreachable.1 ⟨10, -100, ⟨7, "Ali"⟩, some "/edit selam"⟩ "/edit selam"
    (" selam".data) rfl (by decide)

lemma countUpd_cmd_start (m : Msg) : countUpd (cmd_start m) = 0 := rfl

lemma countUpd_cmd_info (m : Msg) (lookup : ChatLookup) :
    countUpd (cmd_info m lookup) = 0 := by
  cases lookup with
  | ok ty cnt =>
    simp only [cmd_info]
    split_ifs <;> rfl
  | getChatFails e => rfl
  | getCountFails ty e =>
    simp only [cmd_info]
    split_ifs <;> rfl

lemma countUpd_cmd_edit (admin : Int) (ai : String → Except String String) (m : Msg) :
    countUpd (cmd_edit admin ai m) = 0 := by
  unfold cmd_edit
  by_cases h1 : m.from_user.id ≠ admin
  · rw [if_pos h1]
    rfl
  · rw [if_neg h1]
    by_cases h2 : pyEditText (m.text.getD "") = ""
    · rw [if_pos h2]
      rfl
    · rw [if_neg h2]
      cases ai ("Şu yazıyı düzenle, akıcı yap, emoji ekle:\n\n" ++ pyEditText (m.text.getD ""))
      · rfl
      · rfl

lemma countUpd_modActions (m : Msg) (fault : ModFault) (now : Nat) :
    List.countP isUpdate (modActions m fault now) = 0 := by
  cases fault <;> rfl

/-- C4 counterexample: a `/start` message is handled by `cmd_start` and
triggers no persistence update at all. -/
theorem process_start_no_update_cex :
    countUpd (process 123456789 (fun _ => Except.ok "x") "member" ModFault.ok 0
      (ChatLookup.ok "group" 5) ⟨10, -100, ⟨7, "Ali"⟩, some "/start"⟩) = 0 := by
  decide

/-- C4 (amended): every text message dispatched to the moderation handler
triggers exactly one persistence update for its sender/chat pair, placed
after the moderation handling (it is the final action of the trace), under
any fault model; messages dispatched to the `/start` or `/info` command
handlers trigger none. -/
theorem process_updates_once (admin : Int) (ai : String → Except String String)
    (status : String) (fault : ModFault) (now : Nat) (lookup : ChatLookup)
    (m : Msg) (t : String) (ht : m.text = some t) :
    (dispatch m = Handler.moderation →
        countUpd (process admin ai status fault now lookup m) = 1 ∧
        (process admin ai status fault now lookup m).getLast? =
          some (Action.updateStats m.from_user.id m.chat_id)) ∧
    (dispatch m ≠ Handler.moderation →
        countUpd (process admin ai status fault now lookup m) = 0) := by
  constructor
  · intro hdisp
    have hp : process admin ai status fault now lookup m = moderation m status fault now := by
      unfold process
      rw [hdisp]
    have hmod : moderation m status fault now =
        (if flagged t then
           if status ≠ "administrator" ∧ status ≠ "creator" then modActions m fault now
           else []
         else []) ++ [Action.updateStats m.from_user.id m.chat_id] := by
      simp [moderation, ht]
    rw [hp, hmod]
    constructor
    · rw [countUpd, List.countP_append]
      have hpre : List.countP isUpdate (if flagged t then
          if status ≠ "administrator" ∧ status ≠ "creator" then modActions m fault now
          else []
          else []) = 0 := by
        split_ifs with hf hs
        · exact countUpd_modActions m fault now
        · rfl
        · rfl
      rw [hpre]
      rfl
    · exact List.getLast?_concat _
  · intro hdisp
    cases hq : dispatch m with
    | moderation => exact absurd hq hdisp
    | cmdStart =>
      have hp : process admin ai status fault now lookup m = cmd_start m := by
        unfold process
        rw [hq]
      rw [hp]
      exact countUpd_cmd_start m
    | cmdInfo =>
      have hp : process admin ai status fault now lookup m = cmd_info m lookup := by
        unfold process
        rw [hq]
      rw [hp]
      exact countUpd_cmd_info m lookup
    | cmdEdit =>
      have hp : process admin ai status fault now lookup m = cmd_edit admin ai m := by
        unfold process
        rw [hq]
      rw [hp]
      exact countUpd_cmd_edit admin ai m

/-- Witness for C4 (amended): a plain text message triggers exactly one
persistence update. -/
theorem process_updates_once_w :
    countUpd (process 123456789 (fun _ => Except.ok "x") "member" ModFault.ok 0
      (ChatLookup.ok "group" 5) ⟨10, -100, ⟨7, "Ali"⟩, some "selam"⟩) = 1 := by
  exact ((process_updates_once 123456789 (fun _ => Except.ok "x") "member" ModFault.ok 0
    (ChatLookup.ok "group" 5) ⟨10, -100, ⟨7, "Ali"⟩, some "selam"⟩ "selam" rfl).1
    (by decide)).1

/-- C10: `cmd_edit` removes every occurrence of `"/edit"` anywhere in the
message text before trimming whitespace; consequently whenever `"/edit"`
occurs again after the leading command, the processed text differs from
the text following the command, and a message consisting only of
repetitions of `"/edit"` and whitespace is treated as empty text (the
handler replies with the "enter text" notice and makes no AI call). -/
theorem cmd_edit_removes_all (admin : Int) (ai : String → Except String String)
    (m : Msg) (t : String) (rest : List Char)
    (hadm : m.from_user.id = admin) (ht : m.text = some t)
    (hd : t.data = editPat ++ rest) :
    pyEditText t = String.mk (strip (removeEdit t.data)) ∧
    (containsSub editPat rest = true → pyEditText t ≠ afterCommandText t) ∧
    (EditWs t.data →
        cmd_edit admin ai m = [Action.answer m.chat_id "Lütfen düzenlenecek bir metin girin."] ∧
        (cmd_edit admin ai m).all (fun a => !isAiCall a) = true) := by
  refine ⟨rfl, ?_, ?_⟩
  · intro hc heq
    have h1 : t.data.drop editPat.length = rest := by
      rw [hd]
      exact List.drop_left editPat rest
    have h2 : removeEdit t.data = removeEdit rest := by
      rw [hd]
      exact rfl
    have hnlt : nonWs (removeEdit rest) < nonWs rest := nonWs_removeEdit_lt rest hc
    rw [pyEditText, afterCommandText, h1, h2] at heq
    have h3 : strip (removeEdit rest) = strip rest := congrArg String.data heq
    have h4 := congrArg nonWs h3
    rw [nonWs_strip, nonWs_strip] at h4
    omega
  · intro hws
    have hempty : pyEditText t = "" := by
      rw [pyEditText, strip_allWs _ (removeEdit_allWs _ hws)]
    have he : cmd_edit admin ai m =
        [Action.answer m.chat_id "Lütfen düzenlenecek bir metin girin."] := by
      simp [cmd_edit, hadm, ht, hempty]
    exact ⟨he, by rw [he]; simp [isAiCall]⟩

/-- Witness for C10: for the message `"/edit a /edit"` the processed text
differs from the text following the command, and the message
`"/edit  /edit"` (only `/edit`s and whitespace) gets the "enter text"
notice. -/
theorem cmd_edit_removes_all_w :
    pyEditText "/edit a /edit" ≠ afterCommandText "/edit a /edit" ∧
    cmd_edit 5 (fun _ => Except.ok "x") ⟨10, -100, ⟨5, "Ali"⟩, some "/edit  /edit"⟩ =
      [Action.answer (-100) "Lütfen düzenlenecek bir metin girin."] := by
  constructor
  · exact (cmd_edit_removes_all 5 (fun _ => Except.ok "x")
      ⟨10, -100, ⟨5, "Ali"⟩, some "/edit a /edit"⟩ "/edit a /edit" (" a /edit".data)
      rfl rfl (by decide)).2.1 (by decide)
  · refine ((cmd_edit_removes_all 5 (fun _ => Except.ok "x")
      ⟨10, -100, ⟨5, "Ali"⟩, some "/edit  /edit"⟩ "/edit  /edit" ("  /edit".data)
      rfl rfl (by decide)).2.2 ?_).1
    have e1 : EditWs (editPat ++ []) := EditWs.edit [] EditWs.nil
    have e2 : EditWs (' ' :: (editPat ++ [])) := EditWs.ws ' ' (by decide) _ e1
    have e3 : EditWs (' ' :: ' ' :: (editPat ++ [])) := EditWs.ws ' ' (by decide) _ e2
    exact EditWs.edit _ e3

end Bot
